import Mathlib

/-!
Shallow embedding of `templet.py`, a terminal template manager.

The embedding models, from the source:
  * the catalog filter `is_supported_file` and the startup listing
    `load_templates` (Python `sorted` + filter over `iterdir`),
  * the instantiation routine `create_file_from_template` including the
    collision-resolution `while` loop, the date-prefix naming and the
    markdown/text header injection,
  * the fallback command handler `handle_fallback_command` and the raw-key
    branch of `run`, with Python exceptions modelled by `Except`,
  * Python string helpers used by the code: `str.rsplit('.', 1)`,
    `str(counter)` (decimal rendering), `pathlib.Path.suffix`,
    `str.lower()`, `str.isdigit()`, `int(s)` and list indexing.

Dates and times (`datetime.now()`) are injected through an environment
record, as the spec directs for testability.
-/

/-- Python exceptions relevant to the program: I/O failures raised by
`open`/`read`/`write`, `IndexError` from list indexing, and
`KeyboardInterrupt` (the only exception `run` catches). -/
inductive PyExc where
  | ioError
  | indexError
  | keyboardInterrupt
deriving DecidableEq, Repr

/-- Split a character list at its LAST dot: `rsplitDot l = some (b, a)`
means `l = b ++ dot :: a` with no dot in `a`.  Models Python
`s.rsplit(chr(46), 1)` when the dot occurs, `none` when it does not. -/
def rsplitDot : List Char → Option (List Char × List Char)
  | [] => none
  | c :: cs =>
    match rsplitDot cs with
    | some (b, a) => some (c :: b, a)
    | none => if c = '.' then some ([], cs) else none

/-- The character for a decimal digit, `chr(48 + d)`. -/
def digitChar (d : Nat) : Char := Char.ofNat (48 + d)

/-- Fuelled decimal rendering: the digits of `n`, most significant first.
`natStrAux f n` is correct whenever `n ≤ f`. -/
def natStrAux : Nat → Nat → List Char
  | 0, _ => []
  | f + 1, n => if n = 0 then [] else natStrAux f (n / 10) ++ [digitChar (n % 10)]

/-- Python `str(n)` for a natural number: its decimal numeral. -/
def pyStrNat (n : Nat) : String :=
  if n = 0 then "0" else ⟨natStrAux n n⟩

/-- Read a decimal numeral back; models Python `int(s)` on digit strings. -/
def digitsVal (l : List Char) : Nat :=
  l.foldl (fun a c => 10 * a + (c.toNat - 48)) 0

/-- Python `s.isdigit()` for the ASCII strings this program handles:
nonempty and every character a decimal digit. -/
def pyIsdigit (s : String) : Bool :=
  s ≠ "" && s.data.all (fun c => 48 ≤ c.toNat && c.toNat ≤ 57)

/-- Python `int(s)` for a digit string. -/
def pyParseNat (s : String) : Nat := digitsVal s.data

/-- Python `s.lower()` (ASCII case folding, which covers every name the
allow-lists compare against). -/
def pyLower (s : String) : String := ⟨s.data.map Char.toLower⟩

/-- `pathlib.Path.suffix`: the part of the name from its last dot on,
provided that dot is neither the first nor the last character; otherwise
the empty string. -/
def pathSuffix (name : String) : String :=
  match rsplitDot name.data with
  | some (b, a) => if b ≠ [] ∧ a ≠ [] then ⟨'.' :: a⟩ else ""
  | none => ""

/-- `TEXT_EXTENSIONS` from the source: extensions accepted by the catalog
filter (compared against the lowercased suffix). -/
def TEXT_EXTENSIONS : List String :=
  [".txt", ".md", ".py", ".js", ".html", ".css", ".yml", ".yaml",
   ".json", ".xml", ".sh", ".bash", ".zsh", ".fish", ".toml", ".ini",
   ".cfg", ".conf", ".env", ".gitignore", ".dockerignore", ".rst",
   ".tex", ".csv", ".sql", ".vim", ".lua", ".rb", ".go", ".rs",
   ".java", ".c", ".cpp", ".h", ".hpp", ".php", ".swift", ".kt",
   ".r", ".R", ".jl", ".ts", ".tsx", ".jsx", ".vue", ".svelte",
   ".scss", ".sass", ".less", ".asm", ".s", ".pl", ".pm", ".tcl",
   ".dart", ".gradle", ".sbt", ".clj", ".cljs", ".edn", ".ex", ".exs",
   ".elm", ".fs", ".fsx", ".fsi", ".ml", ".mli", ".nim", ".nims",
   ".hx", ".hxml", ".pas", ".pp", ".inc", ".zig", ".v", ".vsh"]

/-- `NO_EXT_FILES` from the source: extension-less filenames accepted by
the catalog filter. -/
def NO_EXT_FILES : List String :=
  ["Dockerfile", ".gitignore", "Makefile", "Rakefile", "Gemfile", "Pipfile",
   "Procfile", "Vagrantfile", "Brewfile", "Guardfile", "Capfile",
   "Thorfile", "Berksfile", "Appraisals", "Fastfile", "Appfile",
   "Deliverfile", "Matchfile", "Scanfile", "Gymfile", "LICENSE",
   "README", "CHANGELOG", "AUTHORS", "CONTRIBUTORS", "COPYING",
   "INSTALL", "NEWS", "THANKS", "HISTORY", "NOTICE", "MANIFEST"]

/-- `TemplateManager.is_supported_file`: known extension-less name, or a
supported (lowercased) extension. -/
def is_supported_file (name : String) : Bool :=
  name ∈ NO_EXT_FILES || pyLower (pathSuffix name) ∈ TEXT_EXTENSIONS

/-- A directory entry as seen by `Path.iterdir`: its final name and
whether it is a regular file. -/
structure DirEntry where
  name : String
  isFile : Bool
deriving DecidableEq, Repr

/-- `TemplateManager.load_templates`: the sorted names of the regular
files passing the filter. -/
def load_templates (entries : List DirEntry) : List String :=
  List.insertionSort (· ≤ ·)
    ((entries.filter (fun f => f.isFile && is_supported_file f.name)).map (fun f => f.name))

/-- The environment of one instantiation: template directory contents
(`none` models an unreadable file, raising at `open`/`read`), the files
already present in the working directory, whether a write succeeds
(`false` raises at `open`/`write`), and the injected clock — the
strftime renderings `%Y-%m-%d` and `%Y-%m-%d • %H:%M:%S` of
`datetime.now()`. -/
structure Env where
  readTemplate : String → Option String
  cwdFiles : List String
  writeOk : String → Bool
  dateStr : String
  dateTimeStr : String

/-- `header_safe_extensions` from `create_file_from_template`. -/
def header_safe_extensions : List String :=
  [".txt", ".md", ".markdown", ".mdown", ".mkd"]

/-- The header block prepended to prose files on date-prefixed
instantiation (the f-string at the top of the header branch). -/
def mkHeader (templateName dateTimeStr : String) : String :=
  "# ✦ Template: " ++ templateName ++ "\n### 📅 " ++ dateTimeStr ++ "\n---\n\n"

/-- The base-name/extension split in `create_file_from_template`:
`rsplit` at the last dot with the dot re-attached to the extension, or an
empty extension when the name has no dot. -/
def splitNameExt (name : String) : String × String :=
  match rsplitDot name.data with
  | some (b, a) => (⟨b⟩, ⟨'.' :: a⟩)
  | none => (name, "")

/-- One rewrite of the conflict loop: the renamed candidate derived from
the ORIGINAL filename and the current counter. -/
def nextCandidate (original : String) (counter : Nat) : String :=
  match rsplitDot original.data with
  | some (b, a) => (⟨b⟩ : String) ++ "-" ++ pyStrNat counter ++ "." ++ (⟨a⟩ : String)
  | none => original ++ "-" ++ pyStrNat counter

/-- The sequence of names the conflict loop tries: the original first,
then `nextCandidate` at counters 1, 2, ... -/
def candidateAt (original : String) : Nat → String
  | 0 => original
  | k + 1 => nextCandidate original (k + 1)

/-- The conflict `while` loop, fuelled: at counter `c` with current
candidate `cur`, if `cur` exists rewrite from the original and retry. -/
def resolveGo (existing : List String) (original : String) : Nat → Nat → String → String
  | 0, _, cur => cur
  | fuel + 1, counter, cur =>
    if cur ∈ existing then resolveGo existing original fuel (counter + 1) (nextCandidate original counter)
    else cur

/-- Conflict resolution as in `create_file_from_template`: start at the
proposed name with counter 1.  The fuel `existing.length + 1` is enough:
the candidates are pairwise distinct, so a free one occurs among the
first `existing.length + 1` (proved below). -/
def resolveConflict (existing : List String) (original : String) : String :=
  resolveGo existing original (existing.length + 1) 1 original

/-- The proposed filename before conflict resolution: date-prefixed or
the template's own name. -/
def initial_filename (env : Env) (templateName : String) (addDatePrefix : Bool) : String :=
  let be := splitNameExt templateName
  if addDatePrefix then env.dateStr ++ "-" ++ be.1 ++ be.2 else be.1 ++ be.2

/-- `TemplateManager.create_file_from_template`: read the template,
compute the destination name with conflict resolution, inject the header
for prose extensions under a date prefix, and write.  Returns the final
filename together with the content written; `Except.error` models an
uncaught Python exception. -/
def create_file_from_template (env : Env) (templateName : String) (addDatePrefix : Bool) :
    Except PyExc (String × String) :=
  match env.readTemplate templateName with
  | none => .error .ioError
  | some content =>
    let extension := (splitNameExt templateName).2
    let newFilename := resolveConflict env.cwdFiles (initial_filename env templateName addDatePrefix)
    let finalContent :=
      if pyLower extension ∈ header_safe_extensions ∧ addDatePrefix = true then
        mkHeader templateName env.dateTimeStr ++ content
      else content
    if env.writeOk newFilename then .ok (newFilename, finalContent) else .error .ioError

/-- `self.selected_index = max(0, self.selected_index - 1)` (the up-arrow
and `up` branches). -/
def moveUp (i : Int) : Int := max 0 (i - 1)

/-- `self.selected_index = min(len(self.templates) - 1, self.selected_index + 1)`
(the down-arrow and `down` branches). -/
def moveDown (n i : Int) : Int := min (n - 1) (i + 1)

/-- The digit branch: `target_index = int(command) - 1`, applied only
when `0 <= target_index < len(self.templates)`. -/
def jumpTo (n i k : Int) : Int := if 0 ≤ k - 1 ∧ k - 1 < n then k - 1 else i

/-- The mutable fields of `TemplateManager` the loop touches: the catalog
and the selection index (a Python int). -/
structure SessionState where
  templates : List String
  selectedIndex : Int
deriving DecidableEq, Repr

/-- `TemplateManager.__init__` (after `load_templates`): catalog from the
directory listing, index 0. -/
def init_state (entries : List DirEntry) : SessionState :=
  { templates := load_templates entries, selectedIndex := 0 }

/-- Python list indexing `l[i]`: negative indices count from the end,
out-of-range raises `IndexError`. -/
def pyIndex (l : List String) (i : Int) : Except PyExc String :=
  let j := if i < 0 then i + l.length else i
  if h : 0 ≤ j ∧ j.toNat < l.length then .ok (l.get ⟨j.toNat, h.2⟩) else .error .indexError

/-- The observable console messages of one command (colour codes and
layout elided): the success line `✓ Created: {name}`, the help screen,
and the unknown-command hint. -/
inductive Msg where
  | created (filename : String)
  | helpText
  | unknownHint
deriving DecidableEq, Repr

/-- Result of one fallback-loop iteration: new state, whether the loop
continues, the files written `(name, content)`, and the messages printed.
`Except.error` models an exception propagating out of the handler. -/
abbrev StepResult := Except PyExc (SessionState × Bool × List (String × String) × List Msg)

/-- `TemplateManager.handle_fallback_command`, one command in fallback
(line-based) mode. -/
def handle_fallback_command (env : Env) (st : SessionState) (command0 : String) : StepResult :=
  let command := if command0 = "" then "enter" else command0
  if command ∈ ["q", "quit", "exit"] then
    .ok (st, false, [], [])
  else if command ∈ ["up", "u"] ∧ st.templates ≠ [] then
    .ok ({ st with selectedIndex := moveUp st.selectedIndex }, true, [], [])
  else if command ∈ ["down", "d"] ∧ st.templates ≠ [] then
    .ok ({ st with selectedIndex := moveDown st.templates.length st.selectedIndex }, true, [], [])
  else if pyIsdigit command = true ∧ st.templates ≠ [] then
    .ok ({ st with selectedIndex := jumpTo st.templates.length st.selectedIndex (pyParseNat command) },
         true, [], [])
  else if command ∈ ["enter", "e", ""] ∧ st.templates ≠ [] then
    match pyIndex st.templates st.selectedIndex with
    | .error e => .error e
    | .ok t =>
      match create_file_from_template env t true with
      | .error e => .error e
      | .ok fc => .ok (st, false, [fc], [.created fc.1])
  else if command ∈ ["copy", "c"] ∧ st.templates ≠ [] then
    match pyIndex st.templates st.selectedIndex with
    | .error e => .error e
    | .ok t =>
      match create_file_from_template env t false with
      | .error e => .error e
      | .ok fc => .ok (st, false, [fc], [.created fc.1])
  else if command ∈ ["help", "h", "?"] then
    .ok (st, true, [], [.helpText])
  else
    .ok (st, true, [], [.unknownHint])

/-- The termios branch of `TemplateManager.run`: one key in raw mode. -/
def run_termios_step (env : Env) (st : SessionState) (key : String) : StepResult :=
  if key = "q" then
    .ok (st, false, [], [])
  else if key = "\x1b[A" ∧ st.templates ≠ [] then
    .ok ({ st with selectedIndex := moveUp st.selectedIndex }, true, [], [])
  else if key = "\x1b[B" ∧ st.templates ≠ [] then
    .ok ({ st with selectedIndex := moveDown st.templates.length st.selectedIndex }, true, [], [])
  else if key = "\r" ∧ st.templates ≠ [] then
    match pyIndex st.templates st.selectedIndex with
    | .error e => .error e
    | .ok t =>
      match create_file_from_template env t true with
      | .error e => .error e
      | .ok fc => .ok (st, false, [fc], [.created fc.1])
  else if key = "c" ∧ st.templates ≠ [] then
    match pyIndex st.templates st.selectedIndex with
    | .error e => .error e
    | .ok t =>
      match create_file_from_template env t false with
      | .error e => .error e
      | .ok fc => .ok (st, false, [fc], [.created fc.1])
  else
    .ok (st, true, [], [])

/-- The exception handling of `TemplateManager.run`: the loop body sits
in a `try` whose only handler is `except KeyboardInterrupt` (which exits
gracefully, modelled by `some`→`none`); every other exception propagates
out and crashes the process. -/
def run_result {α : Type} (r : Except PyExc α) : Except PyExc (Option α) :=
  match r with
  | .ok a => .ok (some a)
  | .error .keyboardInterrupt => .ok none
  | .error e => .error e

/-- Concrete environment: templates directory holds `report.txt`, the
working directory already holds `report.txt` and `report-1.txt`. -/
def envReport : Env :=
  { readTemplate := fun n => if n = "report.txt" then some "body" else none,
    cwdFiles := ["report.txt", "report-1.txt"], writeOk := fun _ => true,
    dateStr := "2024-03-01", dateTimeStr := "2024-03-01 • 10:00:00" }

/-- Concrete environment: `notes.md` template, empty working directory,
clock fixed to 2024-03-01. -/
def envNotes : Env :=
  { readTemplate := fun n => if n = "notes.md" then some "hello" else none,
    cwdFiles := [], writeOk := fun _ => true,
    dateStr := "2024-03-01", dateTimeStr := "2024-03-01 • 10:00:00" }

/-- Concrete environment: a non-prose `script.sh` template. -/
def envScript : Env :=
  { readTemplate := fun n => if n = "script.sh" then some "echo hi" else none,
    cwdFiles := [], writeOk := fun _ => true,
    dateStr := "2024-03-01", dateTimeStr := "2024-03-01 • 10:00:00" }

/-- Concrete environment in which every template read raises. -/
def envFail : Env :=
  { readTemplate := fun _ => none, cwdFiles := [], writeOk := fun _ => true,
    dateStr := "2024-03-01", dateTimeStr := "2024-03-01 • 10:00:00" }

/-! ### Helper lemmas: splitting at the last dot -/

theorem rsplitDot_eq (l : List Char) :
    ∀ b a, rsplitDot l = some (b, a) → l = b ++ '.' :: a := by
  induction l with
  | nil => intro b a h; simp [rsplitDot] at h
  | cons c cs ih =>
    intro b a h
    simp only [rsplitDot] at h
    cases hr : rsplitDot cs with
    | some p =>
      obtain ⟨b0, a0⟩ := p
      rw [hr] at h
      simp only [Option.some.injEq, Prod.mk.injEq] at h
      obtain ⟨hb, ha⟩ := h
      subst hb; subst ha
      simp [ih _ _ hr]
    | none =>
      rw [hr] at h
      by_cases hc : c = '.'
      · simp [hc] at h
        obtain ⟨hb, ha⟩ := h
        subst hb; subst ha; simp [hc]
      · simp [hc] at h

/-! ### Helper lemmas: decimal rendering is injective -/

theorem digitChar_toNat (d : Nat) (hd : d < 10) : (digitChar d).toNat = 48 + d := by
  have h : ∀ x : Fin 10, (digitChar x.val).toNat = 48 + x.val := by decide
  exact h ⟨d, hd⟩

theorem natStrAux_foldl (f : Nat) :
    ∀ n acc, n ≤ f →
      (natStrAux f n).foldl (fun a c => 10 * a + (c.toNat - 48)) acc =
        acc * 10 ^ (natStrAux f n).length + n := by
  induction f with
  | zero =>
    intro n acc hn
    interval_cases n
    simp [natStrAux]
  | succ f ih =>
    intro n acc hn
    by_cases h0 : n = 0
    · subst h0; simp [natStrAux]
    · have hrec : n / 10 ≤ f := by omega
      have hlt : n % 10 < 10 := Nat.mod_lt _ (by omega)
      simp only [natStrAux, h0, if_false]
      rw [List.foldl_append, ih _ acc hrec]
      simp only [List.foldl_cons, List.foldl_nil, List.length_append, List.length_cons,
        List.length_nil, digitChar_toNat _ hlt]
      have hmod : 48 + n % 10 - 48 = n % 10 := by omega
      rw [hmod, pow_succ]
      have hdm : 10 * (n / 10) + n % 10 = n := Nat.div_add_mod n 10
      ring_nf
      omega

theorem digitsVal_pyStrNat (n : Nat) : digitsVal (pyStrNat n).data = n := by
  by_cases h0 : n = 0
  · subst h0; decide
  · simp only [pyStrNat, h0, if_false, digitsVal]
    have := natStrAux_foldl n n 0 le_rfl
    simpa using this

theorem pyStrNat_data_ne_nil (n : Nat) : (pyStrNat n).data ≠ [] := by
  by_cases h0 : n = 0
  · subst h0; decide
  · simp only [pyStrNat, h0, if_false]
    obtain ⟨f, hf⟩ : ∃ f, n = f + 1 := ⟨n - 1, by omega⟩
    subst hf
    simp [natStrAux, h0]

theorem pyStrNat_data_inj {m n : Nat} (h : (pyStrNat m).data = (pyStrNat n).data) : m = n := by
  have := digitsVal_pyStrNat m
  rw [h, digitsVal_pyStrNat] at this
  omega

/-! ### Helper lemmas: the candidate names are pairwise distinct -/

theorem string_data_append (s t : String) : (s ++ t).data = s.data ++ t.data := rfl

theorem nextCandidate_data (original : String) (c : Nat) :
    (∀ b a, rsplitDot original.data = some (b, a) →
      (nextCandidate original c).data = b ++ '-' :: ((pyStrNat c).data ++ '.' :: a)) ∧
    (rsplitDot original.data = none →
      (nextCandidate original c).data = original.data ++ '-' :: (pyStrNat c).data) := by
  constructor
  · intro b a h
    simp [nextCandidate, h, string_data_append]
  · intro h
    simp [nextCandidate, h, string_data_append]

theorem nextCandidate_data_length (original : String) (c : Nat) :
    (nextCandidate original c).data.length =
      original.data.length + 1 + (pyStrNat c).data.length := by
  cases hr : rsplitDot original.data with
  | some p =>
    obtain ⟨b, a⟩ := p
    have hd := (nextCandidate_data original c).1 b a hr
    have ho := rsplitDot_eq original.data b a hr
    rw [hd]
    simp [ho]
    omega
  | none =>
    have hd := (nextCandidate_data original c).2 hr
    rw [hd]
    simp
    omega

theorem candidateAt_injective (original : String) :
    Function.Injective (candidateAt original) := by
  have hlen : ∀ c : Nat, 1 ≤ (pyStrNat c).data.length := by
    intro c
    have := pyStrNat_data_ne_nil c
    cases h : (pyStrNat c).data with
    | nil => exact absurd h this
    | cons x xs => simp
  have hne : ∀ k : Nat, candidateAt original 0 ≠ candidateAt original (k + 1) := by
    intro k h
    have := congrArg (fun s => s.data.length) h
    simp only [candidateAt, nextCandidate_data_length] at this
    have := hlen (k + 1)
    omega
  intro j k h
  match j, k with
  | 0, 0 => rfl
  | 0, k + 1 => exact absurd h (hne k)
  | j + 1, 0 => exact absurd h.symm (hne j)
  | j + 1, k + 1 =>
    have hd : (candidateAt original (j + 1)).data = (candidateAt original (k + 1)).data :=
      congrArg _ h
    simp only [candidateAt] at hd
    have htail : (pyStrNat (j + 1)).data = (pyStrNat (k + 1)).data := by
      cases hr : rsplitDot original.data with
      | some p =>
        obtain ⟨b, a⟩ := p
        rw [(nextCandidate_data original (j + 1)).1 b a hr,
            (nextCandidate_data original (k + 1)).1 b a hr] at hd
        have h1 : ((pyStrNat (j + 1)).data ++ '.' :: a) = ((pyStrNat (k + 1)).data ++ '.' :: a) := by
          have := List.append_cancel_left hd
          exact List.cons_injective this
        have hl : (pyStrNat (j + 1)).data.length = (pyStrNat (k + 1)).data.length := by
          have := congrArg List.length h1
          simp only [List.length_append, List.length_cons] at this
          omega
        exact (List.append_inj h1 hl).1
      | none =>
        rw [(nextCandidate_data original (j + 1)).2 hr,
            (nextCandidate_data original (k + 1)).2 hr] at hd
        have := List.append_cancel_left hd
        exact List.cons_injective this
    have := pyStrNat_data_inj htail
    omega

/-! ### Helper lemmas: the conflict loop terminates on a free name -/

theorem exists_free_candidate (existing : List String) (original : String) :
    ∃ j, j ≤ existing.length ∧ candidateAt original j ∉ existing := by
  by_contra hall
  push_neg at hall
  have hsub : (Finset.range (existing.length + 1)).image (candidateAt original) ⊆
      existing.toFinset := by
    intro x hx
    simp only [Finset.mem_image, Finset.mem_range] at hx
    obtain ⟨j, hj, hx⟩ := hx
    rw [List.mem_toFinset, ← hx]
    exact hall j (by omega)
  have hcard : ((Finset.range (existing.length + 1)).image (candidateAt original)).card =
      existing.length + 1 := by
    rw [Finset.card_image_of_injective _ (candidateAt_injective original), Finset.card_range]
  have h1 := Finset.card_le_card hsub
  have h2 := existing.toFinset_card_le
  omega

theorem resolveGo_spec (existing : List String) (original : String) :
    ∀ (fuel c : Nat), 0 < c →
      (∃ j, j < fuel ∧ candidateAt original (c - 1 + j) ∉ existing) →
      ∃ k, c - 1 ≤ k ∧ candidateAt original k ∉ existing ∧
        (∀ m, c - 1 ≤ m → m < k → candidateAt original m ∈ existing) ∧
        resolveGo existing original fuel c (candidateAt original (c - 1)) =
          candidateAt original k := by
  intro fuel
  induction fuel with
  | zero =>
    intro c _ hex
    obtain ⟨j, hj, _⟩ := hex
    omega
  | succ fuel ih =>
    intro c hc hex
    obtain ⟨p, rfl⟩ : ∃ p, c = p + 1 := ⟨c - 1, by omega⟩
    by_cases hmem : candidateAt original p ∈ existing
    · have hex' : ∃ j, j < fuel ∧ candidateAt original (p + 2 - 1 + j) ∉ existing := by
        obtain ⟨j, hj, hfree⟩ := hex
        match j, hfree with
        | 0, hfree => exact absurd hmem hfree
        | j + 1, hfree =>
          refine ⟨j, by omega, ?_⟩
          have harith : p + 2 - 1 + j = p + 1 - 1 + (j + 1) := by omega
          rw [harith]
          exact hfree
      obtain ⟨k, hk1, hk2, hk3, hk4⟩ := ih (p + 2) (by omega) hex'
      refine ⟨k, by omega, hk2, ?_, ?_⟩
      · intro m hm1 hm2
        by_cases hm0 : m = p
        · rw [hm0]; exact hmem
        · exact hk3 m (by omega) hm2
      · have hstep : resolveGo existing original (fuel + 1) (p + 1) (candidateAt original p) =
            resolveGo existing original fuel (p + 2) (nextCandidate original (p + 1)) := by
          simp [resolveGo, hmem]
        show resolveGo existing original (fuel + 1) (p + 1) (candidateAt original p) =
          candidateAt original k
        rw [hstep]
        exact hk4
    · refine ⟨p, le_rfl, hmem, by omega, ?_⟩
      simp [resolveGo, hmem]

theorem resolveConflict_spec (existing : List String) (original : String) :
    ∃ k, candidateAt original k ∉ existing ∧
      (∀ m, m < k → candidateAt original m ∈ existing) ∧
      resolveConflict existing original = candidateAt original k := by
  obtain ⟨j, hj, hfree⟩ := exists_free_candidate existing original
  have hgo := resolveGo_spec existing original (existing.length + 1) 1 (by omega)
    ⟨j, by omega, by simpa using hfree⟩
  obtain ⟨k, _, hk2, hk3, hk4⟩ := hgo
  refine ⟨k, hk2, fun m hm => hk3 m (by omega) hm, ?_⟩
  have h0 : candidateAt original 0 = original := rfl
  unfold resolveConflict
  rw [show (1 : Nat) - 1 = 0 from rfl, h0] at hk4
  exact hk4

theorem resolveConflict_not_mem (existing : List String) (original : String) :
    resolveConflict existing original ∉ existing := by
  obtain ⟨k, hfree, _, heq⟩ := resolveConflict_spec existing original
  rw [heq]
  exact hfree

/-! ### Claim C1 -/

/-- C1: the collision-resolution step of `create_file_from_template`
derives every renamed candidate from the original candidate with an
incrementing counter — the name returned is `candidateAt original k` for
the least free `k`, where `candidateAt` rewrites the ORIGINAL name, never
a previously suffixed one; concretely, with `report.txt` and
`report-1.txt` already present, instantiating template `report.txt` with
no date prefix returns `report-2.txt`, not `report-1-1.txt`. -/
theorem c1_collision_counter_from_original :
    (∀ (existing : List String) (original : String),
      ∃ k, resolveConflict existing original = candidateAt original k ∧
        candidateAt original k ∉ existing ∧
        ∀ m, m < k → candidateAt original m ∈ existing) ∧
    create_file_from_template envReport "report.txt" false = .ok ("report-2.txt", "body") ∧
    ("report-2.txt" : String) ≠ "report-1-1.txt" := by
  refine ⟨?_, rfl, by decide⟩
  intro existing original
  obtain ⟨k, hfree, hmem, heq⟩ := resolveConflict_spec existing original
  exact ⟨k, heq, hfree, hmem⟩

/-! ### Claim C10 -/

/-- C10: for every set of existing filenames and every initial candidate,
the collision loop returns a name not in the set; the candidate sequence
`original, original-1, original-2, ...` is pairwise distinct, which is
why some candidate is eventually free and the loop terminates. -/
theorem c10_collision_loop_terminates_free :
    ∀ (existing : List String) (original : String),
      resolveConflict existing original ∉ existing ∧
      Function.Injective (candidateAt original) :=
  fun existing original =>
    ⟨resolveConflict_not_mem existing original, candidateAt_injective original⟩

/-- Witness for C10 at a concrete input. -/
theorem c10_witness :
    resolveConflict ["a.txt", "a-1.txt"] "a.txt" ∉ (["a.txt", "a-1.txt"] : List String) ∧
    (candidateAt "a.txt" 1 = candidateAt "a.txt" 2 → (1 : Nat) = 2) :=
  ⟨(c10_collision_loop_terminates_free ["a.txt", "a-1.txt"] "a.txt").1,
   fun h => (c10_collision_loop_terminates_free ["a.txt", "a-1.txt"] "a.txt").2 h⟩

/-! ### Claims C7 and C8 -/

theorem moveDown_iterate (n i : Int) (hi : i ≤ n - 1) :
    ∀ k : Nat, (moveDown n)^[k] i = min (n - 1) (i + k) := by
  intro k
  induction k with
  | zero => simp; omega
  | succ k ih =>
    rw [Function.iterate_succ_apply', ih]
    simp only [moveDown]
    push_cast
    omega

theorem moveUp_iterate (i : Int) (hi : 0 ≤ i) :
    ∀ k : Nat, moveUp^[k] i = max 0 (i - k) := by
  intro k
  induction k with
  | zero => simp; omega
  | succ k ih =>
    rw [Function.iterate_succ_apply', ih]
    simp only [moveUp]
    push_cast
    omega

/-- C7: for every catalog size `n > 0` and valid index, `moveDown` is
`min (n-1) (i+1)` and `moveUp` is `max 0 (i-1)`; iterating gives
`min (n-1) (i+k)` resp. `max 0 (i-k)`, so repeated `moveDown` reaches and
stays at `n-1`, repeated `moveUp` reaches and stays at `0`, and a move at
an edge is idempotent. -/
theorem c7_move_convergence (n i : Int) (_hn : 0 < n) (h0 : 0 ≤ i) (hi : i < n) :
    moveDown n i = min (n - 1) (i + 1) ∧
    moveUp i = max 0 (i - 1) ∧
    (∀ k : Nat, (moveDown n)^[k] i = min (n - 1) (i + k)) ∧
    (∀ k : Nat, moveUp^[k] i = max 0 (i - k)) ∧
    (∀ k : Nat, n - 1 ≤ i + k → (moveDown n)^[k] i = n - 1) ∧
    (∀ k : Nat, i ≤ k → moveUp^[k] i = 0) ∧
    moveDown n (n - 1) = n - 1 ∧
    moveUp 0 = 0 := by
  refine ⟨rfl, rfl, moveDown_iterate n i (by omega), moveUp_iterate i h0, ?_, ?_, ?_, ?_⟩
  · intro k hk
    rw [moveDown_iterate n i (by omega) k]
    omega
  · intro k hk
    rw [moveUp_iterate i h0 k]
    omega
  · simp only [moveDown]; omega
  · simp only [moveUp]; omega

/-- Witness for C7 at `n = 3`, `i = 1`. -/
theorem c7_witness :
    moveDown 3 1 = min 2 2 ∧ moveUp 1 = max 0 0 ∧
    (∀ k : Nat, (moveDown 3)^[k] 1 = min (2 : Int) (1 + (k : Int))) ∧
    (∀ k : Nat, moveUp^[k] 1 = max 0 (1 - (k : Int))) ∧
    (∀ k : Nat, (2 : Int) ≤ 1 + k → (moveDown 3)^[k] 1 = 2) ∧
    (∀ k : Nat, (1 : Int) ≤ k → moveUp^[k] 1 = 0) ∧
    moveDown 3 2 = 2 ∧ moveUp 0 = 0 := by
  have h := c7_move_convergence 3 1 (by decide) (by decide) (by decide)
  exact h

/-- C8: `jumpTo` on a non-empty catalog of size `n` sets the index to
`k - 1` exactly when `1 ≤ k ≤ n`, and otherwise leaves it unchanged. -/
theorem c8_jump_to_spec (n i k : Int) (_hn : 0 < n) :
    (1 ≤ k → k ≤ n → jumpTo n i k = k - 1) ∧
    ((k ≤ 0 ∨ n < k) → jumpTo n i k = i) := by
  constructor
  · intro h1 h2
    simp only [jumpTo]
    rw [if_pos]
    omega
  · intro h
    simp only [jumpTo]
    rw [if_neg]
    omega

/-- Witness for C8: on a catalog of size 3, jumping to 2 selects index 1,
jumping to 5 and to 0 are no-ops. -/
theorem c8_witness :
    jumpTo 3 0 2 = 1 ∧ jumpTo 3 0 5 = 0 ∧ jumpTo 3 2 0 = 2 := by
  refine ⟨(c8_jump_to_spec 3 0 2 (by decide)).1 (by decide) (by decide), 
          (c8_jump_to_spec 3 0 5 (by decide)).2 (Or.inr (by decide)),
          (c8_jump_to_spec 3 2 0 (by decide)).2 (Or.inl (by decide))⟩

/-! ### Claim C5 -/

/-- C5: the startup catalog is sorted in ascending lexicographic order
and contains exactly the names of the regular files whose name is in the
no-extension allow-list or whose lowercased extension is in the
text-extension allow-list; non-regular entries are excluded. -/
theorem c5_catalog_sorted_exact (entries : List DirEntry) :
    List.Sorted (· ≤ ·) (load_templates entries) ∧
    ∀ x, x ∈ load_templates entries ↔
      ∃ e, e ∈ entries ∧ e.isFile = true ∧
        (e.name ∈ NO_EXT_FILES ∨ pyLower (pathSuffix e.name) ∈ TEXT_EXTENSIONS) ∧
        e.name = x := by
  constructor
  · exact List.sorted_insertionSort (· ≤ ·) _
  · intro x
    rw [load_templates, (List.perm_insertionSort (· ≤ ·) _).mem_iff]
    simp only [List.mem_map, List.mem_filter, Bool.and_eq_true, is_supported_file,
      Bool.or_eq_true, decide_eq_true_eq]
    constructor
    · rintro ⟨e, ⟨he, hf, hs⟩, hx⟩
      exact ⟨e, he, hf, hs, hx⟩
    · rintro ⟨e, he, hf, hs, hx⟩
      exact ⟨e, ⟨he, hf, hs⟩, hx⟩

/-! ### Claims C2 and C3 -/

/-- C3: `create_file_from_template` injects the header exactly when the
template's lowercased extension is in the prose set AND the date prefix
is requested; in every other case the written content is the template's
content unchanged. -/
theorem c3_header_iff_prose_and_date (env : Env) (templateName content : String)
    (addDatePrefix : Bool)
    (hread : env.readTemplate templateName = some content)
    (hwrite : env.writeOk
      (resolveConflict env.cwdFiles (initial_filename env templateName addDatePrefix)) = true) :
    create_file_from_template env templateName addDatePrefix =
      .ok (resolveConflict env.cwdFiles (initial_filename env templateName addDatePrefix),
           if pyLower (splitNameExt templateName).2 ∈ header_safe_extensions ∧ addDatePrefix = true
           then mkHeader templateName env.dateTimeStr ++ content
           else content) := by
  simp only [create_file_from_template, hread, hwrite, if_true]

/-- Witness for C3: a non-prose template (`script.sh`) instantiated with
the date prefix is copied byte-identically, and a prose template with
`addDatePrefix = false` is copied byte-identically. -/
theorem c3_witness :
    create_file_from_template envScript "script.sh" true =
      .ok ("2024-03-01-script.sh", "echo hi") ∧
    create_file_from_template envNotes "notes.md" false = .ok ("notes.md", "hello") := by
  constructor
  · have h := c3_header_iff_prose_and_date envScript "script.sh" "echo hi" true rfl rfl
    exact h
  · have h := c3_header_iff_prose_and_date envNotes "notes.md" "hello" false rfl rfl
    exact h

/-- C2: a prose template instantiated with the date prefix yields the
date-prefixed, collision-resolved filename, and its content is the header
block — template filename, then the date-and-time line, then the `---`
separator, then a blank line — followed by the original content
unchanged; concretely `notes.md` on 2024-03-01 yields
`2024-03-01-notes.md` with a header containing `notes.md` and
`2024-03-01`. -/
theorem c2_prose_header_content (env : Env) (templateName content tod : String)
    (hread : env.readTemplate templateName = some content)
    (hprose : pyLower (splitNameExt templateName).2 ∈ header_safe_extensions)
    (hclock : env.dateTimeStr = env.dateStr ++ " • " ++ tod)
    (hwrite : env.writeOk
      (resolveConflict env.cwdFiles (initial_filename env templateName true)) = true) :
    create_file_from_template env templateName true =
      .ok (resolveConflict env.cwdFiles
             (env.dateStr ++ "-" ++ (splitNameExt templateName).1 ++ (splitNameExt templateName).2),
           "# ✦ Template: " ++ templateName ++ "\n### 📅 " ++ env.dateStr ++ " • " ++ tod ++
             "\n---\n\n" ++ content) := by
  rw [show env.dateStr ++ "-" ++ (splitNameExt templateName).1 ++ (splitNameExt templateName).2 =
      initial_filename env templateName true from rfl]
  simp only [create_file_from_template, hread, hwrite, if_true]
  rw [if_pos ⟨hprose, trivial⟩]
  simp [mkHeader, hclock, String.append_assoc]

/-- Witness for C2: the concrete `notes.md` scenario of the claim. -/
theorem c2_witness :
    create_file_from_template envNotes "notes.md" true =
      .ok ("2024-03-01-notes.md",
           "# ✦ Template: notes.md\n### 📅 2024-03-01 • 10:00:00\n---\n\nhello") := by
  have h := c2_prose_header_content envNotes "notes.md" "hello" "10:00:00" rfl (by decide) rfl rfl
  exact h

/-! ### Claim C9 -/

/-- C9: with an empty catalog, every command in both input modes leaves
the state unchanged and writes no file; only quit ends the session
(`continue = false`), and in fallback mode only the help command (besides
the unknown-command hint) produces output — the help screen. -/
theorem c9_empty_catalog_noops (env : Env) (i : Int) (cmd key : String) :
    handle_fallback_command env ⟨[], i⟩ cmd =
      .ok (⟨[], i⟩,
           if (if cmd = "" then "enter" else cmd) ∈ ["q", "quit", "exit"] then false else true,
           [],
           if (if cmd = "" then "enter" else cmd) ∈ ["q", "quit", "exit"] then []
           else if (if cmd = "" then "enter" else cmd) ∈ ["help", "h", "?"] then [Msg.helpText]
           else [Msg.unknownHint]) ∧
    run_termios_step env ⟨[], i⟩ key =
      .ok (⟨[], i⟩, if key = "q" then false else true, [], []) := by
  constructor
  · simp only [handle_fallback_command]
    by_cases hq : (if cmd = "" then "enter" else cmd) ∈ ["q", "quit", "exit"]
    · simp [hq]
    · by_cases hh : (if cmd = "" then "enter" else cmd) ∈ ["help", "h", "?"]
      · simp [hq, hh]
      · simp [hq, hh]
  · simp only [run_termios_step]
    by_cases hq : key = "q"
    · simp [hq]
    · simp [hq]

/-! ### Claim C6 -/

theorem jumpTo_bounds (n i k : Int) (h0 : 0 ≤ i) (hi : i < n) :
    0 ≤ jumpTo n i k ∧ jumpTo n i k < n := by
  simp only [jumpTo]
  split_ifs <;> omega

/-- C6: the selection index starts at 0, and whenever it satisfies
`0 ≤ index < len(templates)` before a command — in either input mode —
it satisfies the same bounds after, with the catalog unchanged. -/
theorem c6_selection_invariant :
    (∀ entries, (init_state entries).selectedIndex = 0) ∧
    (∀ (env : Env) (st : SessionState) (cmd : String) (st' : SessionState) (b : Bool)
        (fs : List (String × String)) (ms : List Msg),
      handle_fallback_command env st cmd = .ok (st', b, fs, ms) →
      0 ≤ st.selectedIndex → st.selectedIndex < st.templates.length →
      st'.templates = st.templates ∧ 0 ≤ st'.selectedIndex ∧
        st'.selectedIndex < (st.templates.length : Int)) ∧
    (∀ (env : Env) (st : SessionState) (key : String) (st' : SessionState) (b : Bool)
        (fs : List (String × String)) (ms : List Msg),
      run_termios_step env st key = .ok (st', b, fs, ms) →
      0 ≤ st.selectedIndex → st.selectedIndex < st.templates.length →
      st'.templates = st.templates ∧ 0 ≤ st'.selectedIndex ∧
        st'.selectedIndex < (st.templates.length : Int)) := by
  refine ⟨fun entries => rfl, ?_, ?_⟩
  · intro env st cmd st' b fs ms h h0 hlt
    simp only [handle_fallback_command] at h
    set c := if cmd = "" then "enter" else cmd with hc
    split at h
    · simp only [Except.ok.injEq, Prod.mk.injEq] at h
      obtain ⟨h1, -, -, -⟩ := h
      subst h1
      exact ⟨rfl, h0, hlt⟩
    · split at h
      · simp only [Except.ok.injEq, Prod.mk.injEq] at h
        obtain ⟨h1, -, -, -⟩ := h
        subst h1
        refine ⟨rfl, ?_, ?_⟩
        · show (0 : Int) ≤ moveUp st.selectedIndex
          simp only [moveUp]; omega
        · show moveUp st.selectedIndex < (st.templates.length : Int)
          simp only [moveUp]; omega
      · split at h
        · simp only [Except.ok.injEq, Prod.mk.injEq] at h
          obtain ⟨h1, -, -, -⟩ := h
          subst h1
          refine ⟨rfl, ?_, ?_⟩
          · show (0 : Int) ≤ moveDown st.templates.length st.selectedIndex
            simp only [moveDown]; omega
          · show moveDown st.templates.length st.selectedIndex < (st.templates.length : Int)
            simp only [moveDown]; omega
        · split at h
          · simp only [Except.ok.injEq, Prod.mk.injEq] at h
            obtain ⟨h1, -, -, -⟩ := h
            subst h1
            have hb := jumpTo_bounds st.templates.length st.selectedIndex (pyParseNat c) h0 hlt
            exact ⟨rfl, hb.1, hb.2⟩
          · split at h
            · split at h
              · simp at h
              · split at h
                · simp at h
                · simp only [Except.ok.injEq, Prod.mk.injEq] at h
                  obtain ⟨h1, -, -, -⟩ := h
                  subst h1
                  exact ⟨rfl, h0, hlt⟩
            · split at h
              · split at h
                · simp at h
                · split at h
                  · simp at h
                  · simp only [Except.ok.injEq, Prod.mk.injEq] at h
                    obtain ⟨h1, -, -, -⟩ := h
                    subst h1
                    exact ⟨rfl, h0, hlt⟩
              · split at h
                · simp only [Except.ok.injEq, Prod.mk.injEq] at h
                  obtain ⟨h1, -, -, -⟩ := h
                  subst h1
                  exact ⟨rfl, h0, hlt⟩
                · simp only [Except.ok.injEq, Prod.mk.injEq] at h
                  obtain ⟨h1, -, -, -⟩ := h
                  subst h1
                  exact ⟨rfl, h0, hlt⟩
  · intro env st key st' b fs ms h h0 hlt
    simp only [run_termios_step] at h
    split at h
    · simp only [Except.ok.injEq, Prod.mk.injEq] at h
      obtain ⟨h1, -, -, -⟩ := h
      subst h1
      exact ⟨rfl, h0, hlt⟩
    · split at h
      · simp only [Except.ok.injEq, Prod.mk.injEq] at h
        obtain ⟨h1, -, -, -⟩ := h
        subst h1
        refine ⟨rfl, ?_, ?_⟩
        · show (0 : Int) ≤ moveUp st.selectedIndex
          simp only [moveUp]; omega
        · show moveUp st.selectedIndex < (st.templates.length : Int)
          simp only [moveUp]; omega
      · split at h
        · simp only [Except.ok.injEq, Prod.mk.injEq] at h
          obtain ⟨h1, -, -, -⟩ := h
          subst h1
          refine ⟨rfl, ?_, ?_⟩
          · show (0 : Int) ≤ moveDown st.templates.length st.selectedIndex
            simp only [moveDown]; omega
          · show moveDown st.templates.length st.selectedIndex < (st.templates.length : Int)
            simp only [moveDown]; omega
        · split at h
          · split at h
            · simp at h
            · split at h
              · simp at h
              · simp only [Except.ok.injEq, Prod.mk.injEq] at h
                obtain ⟨h1, -, -, -⟩ := h
                subst h1
                exact ⟨rfl, h0, hlt⟩
          · split at h
            · split at h
              · simp at h
              · split at h
                · simp at h
                · simp only [Except.ok.injEq, Prod.mk.injEq] at h
                  obtain ⟨h1, -, -, -⟩ := h
                  subst h1
                  exact ⟨rfl, h0, hlt⟩
            · simp only [Except.ok.injEq, Prod.mk.injEq] at h
              obtain ⟨h1, -, -, -⟩ := h
              subst h1
              exact ⟨rfl, h0, hlt⟩

/-- Witness for C6 at a concrete state: `down` on a two-element catalog
from index 0. -/
theorem c6_witness :
    (init_state [⟨"a.md", true⟩]).selectedIndex = 0 ∧
    ((⟨["a.md", "b.md"], 1⟩ : SessionState).templates = ["a.md", "b.md"] ∧
      (0 : Int) ≤ (⟨["a.md", "b.md"], 1⟩ : SessionState).selectedIndex ∧
      (⟨["a.md", "b.md"], 1⟩ : SessionState).selectedIndex < (2 : Int)) := by
  constructor
  · exact c6_selection_invariant.1 [⟨"a.md", true⟩]
  · have h := c6_selection_invariant.2.1 envNotes ⟨["a.md", "b.md"], 0⟩ "down"
      ⟨["a.md", "b.md"], 1⟩ true [] [] rfl (by decide) (by decide)
    exact h

/-! ### Claim C4 -/

/-- C4 counterexample: with a template whose read fails, the `enter`
command makes `handle_fallback_command` raise, and `run` — which catches
only `KeyboardInterrupt` — does not catch it: the session ends in an
uncaught exception (`Except.error`), never in a reported message (no
`.ok` outcome, hence no message list, is produced).  This refutes the
claim that the failure is surfaced as a message and the session does not
crash. -/
theorem c4_counterexample :
    run_result (handle_fallback_command envFail ⟨["notes.md"], 0⟩ "enter") =
      .error PyExc.ioError ∧
    ∀ out, handle_fallback_command envFail ⟨["notes.md"], 0⟩ "enter" ≠ .ok out :=
  ⟨rfl, fun _ h => Except.noConfusion h⟩

/-- C4 amended: a read failure (template unreadable) or write failure
(destination unwritable) at instantiation time raises an exception that
propagates uncaught out of the command handler and past `run`'s
`except KeyboardInterrupt` handler; no message is printed and the session
terminates by crashing rather than by reporting. -/
theorem c4_io_failure_uncaught (env : Env) (st : SessionState) (t : String)
    (hne : st.templates ≠ [])
    (hidx : pyIndex st.templates st.selectedIndex = .ok t) :
    (env.readTemplate t = none →
      handle_fallback_command env st "enter" = .error PyExc.ioError ∧
      run_result (handle_fallback_command env st "enter") = .error PyExc.ioError ∧
      handle_fallback_command env st "copy" = .error PyExc.ioError ∧
      run_result (handle_fallback_command env st "copy") = .error PyExc.ioError) ∧
    (∀ content, env.readTemplate t = some content →
      env.writeOk (resolveConflict env.cwdFiles (initial_filename env t true)) = false →
      handle_fallback_command env st "enter" = .error PyExc.ioError ∧
      run_result (handle_fallback_command env st "enter") = .error PyExc.ioError) := by
  have henter : handle_fallback_command env st "enter" =
      match create_file_from_template env t true with
      | .error e => .error e
      | .ok fc => .ok (st, false, [fc], [.created fc.1]) := by
    simp only [handle_fallback_command]
    norm_num
    simp only [hne, not_false_iff, and_true, if_neg, if_pos, hidx]
    rfl
  have hcopy : handle_fallback_command env st "copy" =
      match create_file_from_template env t false with
      | .error e => .error e
      | .ok fc => .ok (st, false, [fc], [.created fc.1]) := by
    simp only [handle_fallback_command]
    norm_num
    simp only [hne, not_false_iff, and_true, if_neg, if_pos, hidx]
    rfl
  constructor
  · intro hread
    have hcreateT : create_file_from_template env t true = .error PyExc.ioError := by
      simp only [create_file_from_template, hread]
    have hcreateF : create_file_from_template env t false = .error PyExc.ioError := by
      simp only [create_file_from_template, hread]
    rw [henter, hcopy, hcreateT, hcreateF]
    exact ⟨rfl, rfl, rfl, rfl⟩
  · intro content hread hwrite
    have hcreate : create_file_from_template env t true = .error PyExc.ioError := by
      simp only [create_file_from_template, hread, hwrite]
      rfl
    rw [henter, hcreate]
    exact ⟨rfl, rfl⟩

/-- Witness for C4's amended theorem at a concrete failing read. -/
theorem c4_witness :
    handle_fallback_command envFail ⟨["notes.md"], 0⟩ "enter" = .error PyExc.ioError ∧
    run_result (handle_fallback_command envFail ⟨["notes.md"], 0⟩ "enter") =
      .error PyExc.ioError := by
  have h := (c4_io_failure_uncaught envFail ⟨["notes.md"], 0⟩ "notes.md"
    (by decide) rfl).1 rfl
  exact ⟨h.1, h.2.1⟩
